import Mathlib

/-!
Verification of the order / payment subsystem of the pressing backend
(Django app under src/api/).  Monetary values (Python Decimal columns with
decimal_places = 2) are embedded as integer numbers of cents: every such
value is an exact multiple of 0.01, and the only arithmetic the source
performs on them (Decimal addition, and multiplication by an integer
quantity) is exact and corresponds to integer addition and
multiplication on cents, so the embedding is faithful and loses no
precision.  Timestamps are embedded
as integers, database rows as Lean structures, and each HTTP-level
operation as a pure function on an explicit database state.
-/

namespace Pressing

/-- Errors surfaced by the API layer.  ValidationError models
rest_framework serializers.ValidationError (HTTP 400), NotFound models the
404 raised by get_object, IntegrityError models a database constraint
violation (NOT NULL or UNIQUE) aborting the insert. -/
inductive ApiError where
  | ValidationError (detail : String)
  | NotFound (detail : String)
  | IntegrityError (detail : String)
  deriving DecidableEq, Repr

/-- Service row (api/models.py, class Service).  Only the columns the
verified claims read are modelled: the primary key and the mutable price
(DecimalField, decimal_places = 2). -/
structure Service where
  id : Nat
  price : ℤ
  deriving DecidableEq, Repr

/-- OrderItem row (api/models.py, class OrderItem): service foreign key,
quantity, unit_price (copied from Service.price at creation),
total_price, free-text description. -/
structure OrderItem where
  serviceId : Nat
  quantity : Nat
  unit_price : ℤ
  total_price : ℤ
  description : String
  deriving DecidableEq, Repr

/-- Order row (api/models.py, class Order).  status is stored as the raw
CharField string, exactly as Django does.  The owned OrderItem rows are
kept inside the aggregate (they carry an order foreign key in the schema;
grouping them under their owner is an equivalent view of that table). -/
structure Order where
  pk : Nat
  order_id : String
  deposit_date : Int
  due_date : Int
  pickup_date : Option Int
  status : String
  total_amount : ℤ
  amount_paid : ℤ
  notes : String
  items : List OrderItem
  deriving DecidableEq, Repr

/-- Payment row (api/models.py, class Payment): primary key, order foreign
key, amount.  payment_method, reference and notes play no role in the
verified claims. -/
structure Payment where
  id : Nat
  orderPk : Nat
  amount : ℤ
  deriving DecidableEq, Repr

/-- The relational store: the three tables the claims are about. -/
structure DB where
  services : List Service
  orders : List Order
  payments : List Payment
  deriving DecidableEq, Repr

deriving instance DecidableEq for Except

/-- Fuel-driven decimal conversion (structural so that concrete values
reduce inside the kernel); the fuel never runs out when it exceeds the
argument. -/
def natReprAux : Nat → Nat → List Char
  | 0, _ => []
  | f + 1, n =>
    if n < 10 then [Char.ofNat (48 + n)]
    else natReprAux f (n / 10) ++ [Char.ofNat (48 + n % 10)]

/-- Decimal digits of a natural number, most significant first
(embedding of Python str(n) for a nonnegative integer). -/
def natRepr (n : Nat) : List Char :=
  natReprAux (n + 1) n

/-- Embedding of the Python format spec 04d used in
api/utils.py generate_order_id: the decimal representation left-padded
with zeros to at least four characters (never truncated). -/
def pad4 (n : Nat) : List Char :=
  List.replicate (4 - (natRepr n).length) '0' ++ natRepr n

/-- The per-day order-id prefix CMD-YYYYMMDD (api/utils.py line 24). -/
def orderIdPrefix (datestr : List Char) : List Char :=
  "CMD-".data ++ datestr

/-- Number of existing orders whose order_id starts with the prefix for
the given date (api/utils.py lines 27-29). -/
def countTodayOrders (orders : List Order) (datestr : List Char) : Nat :=
  (orders.filter (fun o => (orderIdPrefix datestr).isPrefixOf o.order_id.data)).length

/-- The string returned by api/utils.py generate_order_id for a given
count of existing same-day orders: CMD-YYYYMMDD-NNNN with
NNNN = count + 1 zero-padded to at least 4 digits. -/
def formatOrderId (datestr : List Char) (count : Nat) : String :=
  String.mk (orderIdPrefix datestr ++ ('-' :: pad4 (count + 1)))

/-- api/utils.py generate_order_id: count the orders created today and
format CMD-YYYYMMDD-NNNN with NNNN = count + 1 zero-padded to 4 digits. -/
def generate_order_id (datestr : List Char) (orders : List Order) : String :=
  formatOrderId datestr (countTodayOrders orders datestr)

/-- The regular expression CMD-d8-d4 of the specification, with exactly
four digits in the final component, as a Boolean matcher on the
character list of the candidate string. -/
def matchesOrderIdPattern (l : List Char) : Bool :=
  match l with
  | 'C' :: 'M' :: 'D' :: '-' :: rest =>
    ((rest.take 8).length == 8) && (rest.take 8).all Char.isDigit &&
    (match rest.drop 8 with
     | '-' :: tail => (tail.length == 4) && tail.all Char.isDigit
     | _ => false)
  | _ => false

/-- One entry of the items list accepted by OrderItemCreateSerializer
(api/serializers.py lines 155-166): service_id, quantity, description. -/
structure ItemRequest where
  service_id : Nat
  quantity : Nat
  description : String
  deriving DecidableEq, Repr

/-- Service.objects.get(id = sid) on the services table. -/
def findService (services : List Service) (sid : Nat) : Option Service :=
  services.find? (fun s => s.id == sid)

/-- One iteration of the item loop of OrderCreateSerializer.create
(api/serializers.py lines 298-317): resolve the service, raising
serializers.ValidationError naming the id when it does not exist,
snapshot its price into unit_price and compute
total_price = unit_price * quantity. -/
def buildItem (services : List Service) (req : ItemRequest) : Except ApiError OrderItem :=
  match findService services req.service_id with
  | none => .error (.ValidationError
      ("Service with id " ++ toString req.service_id ++ " does not exist."))
  | some s => .ok
      { serviceId := req.service_id
        quantity := req.quantity
        unit_price := s.price
        total_price := s.price * (req.quantity : ℤ)
        description := req.description }

/-- The whole item loop of OrderCreateSerializer.create: materialize each
item in request order, aborting on the first unresolvable service. -/
def buildItemList (services : List Service) : List ItemRequest → Except ApiError (List OrderItem)
  | [] => .ok []
  | r :: rs =>
    match buildItem services r with
    | .error e => .error e
    | .ok it =>
      match buildItemList services rs with
      | .error e => .error e
      | .ok rest => .ok (it :: rest)

/-- The running total accumulated by OrderCreateSerializer.create
(total_amount starting at Decimal 0.00, adding each total_price). -/
def runningTotal (items : List OrderItem) : ℤ :=
  items.foldl (fun acc it => acc + it.total_price) 0

/-- OrderCreateSerializer.create under its transaction.atomic decorator
(api/serializers.py lines 285-324).  The order row is inserted with
order_id = generate_order_id() and the model defaults amount_paid = 0,
status = PENDING, pickup_date = NULL; a duplicate order_id violates the
UNIQUE constraint and aborts; any ValidationError from the item loop
rolls the whole transaction back, so the database is returned unchanged
on every error path.  No due-date check runs on this path:
OrderCreateSerializer defines no validate method and Django REST
Framework never calls Order.clean. -/
def createOrderTxn (db : DB) (pk : Nat) (datestr : List Char) (now due : Int)
    (notes : String) (reqs : List ItemRequest) : DB × Except ApiError Order :=
  if db.orders.any (fun o => o.order_id == generate_order_id datestr db.orders) then
    (db, .error (.IntegrityError "orders.order_id"))
  else
    match buildItemList db.services reqs with
    | .error e => (db, .error e)
    | .ok items =>
      ({ db with
          orders := db.orders ++
            [{ pk := pk, order_id := generate_order_id datestr db.orders
               deposit_date := now, due_date := due
               pickup_date := none, status := "PENDING"
               total_amount := runningTotal items, amount_paid := 0
               notes := notes, items := items }] },
        .ok
          { pk := pk, order_id := generate_order_id datestr db.orders
            deposit_date := now, due_date := due
            pickup_date := none, status := "PENDING"
            total_amount := runningTotal items, amount_paid := 0
            notes := notes, items := items })

/-- Order.clean (api/models.py lines 181-187): reject due_date at or
before deposit_date with ValidationError keyed due_date.  This method is
only run by Model.full_clean, which no code path of the API invokes. -/
def order_clean (o : Order) : Except ApiError Unit :=
  if o.due_date ≤ o.deposit_date then .error (.ValidationError "due_date") else .ok ()

/-- OrderSerializer.validate (api/serializers.py lines 266-271): reject a
due_date at or before the current time.  OrderCreateSerializer does not
inherit from OrderSerializer, so this check never runs at creation. -/
def orderSerializerValidate (due now : Int) : Except ApiError Unit :=
  if due ≤ now then .error (.ValidationError "due_date") else .ok ()

/-- OrderItem.save (api/models.py lines 240-244): recompute total_price
from the stored unit_price and quantity; the live service price is not
consulted. -/
def order_item_save (it : OrderItem) : OrderItem :=
  { it with total_price := it.unit_price * (it.quantity : ℤ) }

/-- An update of one service price through ServiceViewSet: only the
services table is touched. -/
def update_service_price (db : DB) (sid : Nat) (newPrice : ℤ) : DB :=
  { db with
    services := db.services.map
      (fun s => if s.id == sid then { s with price := newPrice } else s) }

/-- The set of valid status strings, Order.STATUS_CHOICES
(api/models.py lines 120-126). -/
def STATUS_CHOICES : List String :=
  ["PENDING", "IN_PROGRESS", "READY", "DELIVERED", "CANCELLED"]

/-- OrderViewSet.change_status (api/views.py lines 222-245): reject a
status outside STATUS_CHOICES without mutating the order; otherwise set
the status and, whenever the new status is DELIVERED, unconditionally
stamp pickup_date with the current time, then save. -/
def change_status (order : Order) (new_status : String) (now : Int) : Except ApiError Order :=
  if STATUS_CHOICES.contains new_status then
    .ok (if new_status == "DELIVERED" then
          { order with status := new_status, pickup_date := some now }
        else { order with status := new_status })
  else .error (.ValidationError "Invalid status")

/-- The amount validator on Payment.amount, MinValueValidator(1)
(api/models.py line 262), run by PaymentSerializer.is_valid: the amount
must be at least one monetary unit, that is 100 cents. -/
def validate_amount (a : ℤ) : Bool := 100 ≤ a

/-- Order.objects.get by primary key (the lookup behind get_object). -/
def findOrder (orders : List Order) (pk : Nat) : Option Order :=
  match orders with
  | [] => none
  | o :: rest => if o.pk == pk then some o else findOrder rest pk

/-- The storage-level atomic update
Order.objects.filter(pk = pk).update(amount_paid = F(amount_paid) + a)
(api/views.py lines 265-267): one SQL statement that reads and writes
amount_paid on every row matching the filter in a single atomic step. -/
def incrAmountPaid (orders : List Order) (pk : Nat) (a : ℤ) : List Order :=
  orders.map (fun o =>
    if o.pk == pk then { o with amount_paid := o.amount_paid + a } else o)

/-- OrderViewSet.add_payment (api/views.py lines 247-275): resolve the
order (404 when absent), validate the payment through PaymentSerializer
(whose amount validator is MinValueValidator(1)), insert the Payment row,
then atomically increment the order amount_paid at the storage layer.
On a validation failure nothing is written. -/
def add_payment (db : DB) (orderPk : Nat) (payId : Nat) (a : ℤ) :
    DB × Except ApiError Payment :=
  match findOrder db.orders orderPk with
  | none => (db, .error (.NotFound "order"))
  | some _ =>
    if validate_amount a then
      ({ db with
          payments := db.payments ++ [{ id := payId, orderPk := orderPk, amount := a }]
          orders := incrAmountPaid db.orders orderPk a },
        .ok { id := payId, orderPk := orderPk, amount := a })
    else (db, .error (.ValidationError "amount"))

/-- The writable fields of PaymentSerializer (api/serializers.py lines
182-194): the order foreign key is not among them (order_id there is a
read-only SerializerMethodField). -/
def paymentSerializerFields : List String :=
  ["id", "amount", "payment_method", "reference", "notes", "payment_date",
   "order_id", "user_name"]

/-- PaymentViewSet.perform_create (api/views.py lines 345-354).
PaymentSerializer exposes no writable order field, so validated_data
never binds the order foreign key; serializer.save then inserts a Payment
row with order_id NULL into a NOT NULL column, the insert fails with an
IntegrityError before the subsequent read-modify-write of
order.amount_paid runs, and the database is unchanged.  This endpoint can
therefore never complete a payment application. -/
def payment_viewset_perform_create (db : DB) (a : ℤ) : DB × Except ApiError Payment :=
  (db, .error (.IntegrityError "payments.order_id"))

/-- PaymentViewSet.destroy (the stock ModelViewSet destroy action):
delete the Payment row; no other table is touched and no compensating
update of the owning order runs. -/
def destroy_payment (db : DB) (payId : Nat) : DB :=
  { db with payments := db.payments.filter (fun p => !(p.id == payId)) }

/-- Sum of the amounts of the Payment rows recorded against the order
with primary key pk (the quantity the specification calls the sum of all
payments applied to that order). -/
def paymentsSum (payments : List Payment) (pk : Nat) : ℤ :=
  ((payments.filter (fun p => p.orderPk == pk)).map (fun p => p.amount)).sum

/-- The money-accounting invariant of the specification: every order
carries amount_paid equal to the sum of the payments recorded against
it. -/
def PaidInvariant (db : DB) : Prop :=
  ∀ o ∈ db.orders, o.amount_paid = paymentsSum db.payments o.pk

/-- A payment application request: through the order endpoint
(OrderViewSet.add_payment) or through the payments endpoint
(PaymentViewSet.perform_create). -/
inductive PayOp where
  | viaOrder (orderPk : Nat) (payId : Nat) (amount : ℤ)
  | viaPayments (amount : ℤ)
  deriving DecidableEq, Repr

/-- Run one payment application request against the store, keeping the
resulting state (on failure both endpoints leave the store unchanged). -/
def applyPayOp (db : DB) (op : PayOp) : DB :=
  match op with
  | .viaOrder pk pid a => (add_payment db pk pid a).1
  | .viaPayments a => (payment_viewset_perform_create db a).1

/-- Run a sequence of payment application requests. -/
def applyPayOps (db : DB) (ops : List PayOp) : DB :=
  ops.foldl applyPayOp db

/-- The atomic storage-layer actions a payment application decomposes
into: inserting a Payment row, and the single-statement atomic increment
of amount_paid. -/
inductive Action where
  | insertPayment (p : Payment)
  | incrPaid (pk : Nat) (a : ℤ)
  deriving DecidableEq, Repr

/-- Effect of one atomic storage action on the store. -/
def runAction (db : DB) : Action → DB
  | .insertPayment p => { db with payments := db.payments ++ [p] }
  | .incrPaid pk a => { db with orders := incrAmountPaid db.orders pk a }

/-- Run a sequence of atomic storage actions. -/
def runActions (db : DB) (acts : List Action) : DB :=
  acts.foldl runAction db

/-- The storage actions issued by one successful add_payment call, in
program order: insert the Payment row, then the atomic increment. -/
def addPaymentActions (orderPk : Nat) (payId : Nat) (a : ℤ) : List Action :=
  [.insertPayment { id := payId, orderPk := orderPk, amount := a },
   .incrPaid orderPk a]

/-- zs is an interleaving of the two action sequences xs and ys: both
orders are preserved, the scheduler chooses freely between them. -/
inductive Interleaving : List Action → List Action → List Action → Prop where
  | nil : Interleaving [] [] []
  | left (x : Action) {xs ys zs : List Action} :
      Interleaving xs ys zs → Interleaving (x :: xs) ys (x :: zs)
  | right (y : Action) {xs ys zs : List Action} :
      Interleaving xs ys zs → Interleaving xs (y :: ys) (y :: zs)

/-- Single-step effect of a successful add_payment call: the payment
record carries the submitted amount, the target order is incremented by
exactly that amount, and the payment row is persisted. -/
def AddPaymentIncrements : Prop :=
  ∀ (db1 db2 : DB) (pk pid : Nat) (a : ℤ) (p : Payment) (o : Order),
    findOrder db1.orders pk = some o →
    add_payment db1 pk pid a = (db2, .ok p) →
    p.amount = a
    ∧ findOrder db2.orders pk = some { o with amount_paid := o.amount_paid + a }
    ∧ p ∈ db2.payments

/-- Concrete catalog used by the evaluation witnesses: one service of
price 10.00, that is 1000 cents. -/
def svcW : List Service := [{ id := 1, price := 1000 }]

/-- Concrete empty store over svcW used by the evaluation witnesses. -/
def dbW : DB := { services := svcW, orders := [], payments := [] }

/-- Concrete creation date used by the evaluation witnesses. -/
def d20260129 : List Char := "20260129".data

/-- Concrete order used by the evaluation witnesses. -/
def orderW : Order :=
  { pk := 1, order_id := "CMD-20260129-0001", deposit_date := 0, due_date := 5,
    pickup_date := none, status := "PENDING", total_amount := 2000, amount_paid := 0,
    notes := "", items := [] }

/-- Concrete store holding one order, used by the payment witnesses. -/
def dbPay : DB := { services := [], orders := [orderW], payments := [] }

/-- Concrete delivered order with pickup_date already set. -/
def orderC6 : Order := { orderW with status := "DELIVERED", pickup_date := some 5 }

/-- Concrete item request used by witnesses: service 1, quantity 2. -/
def reqW : ItemRequest := { service_id := 1, quantity := 2, description := "" }

/-- The order item the creation loop builds from reqW over svcW. -/
def itW : OrderItem :=
  { serviceId := 1, quantity := 2, unit_price := 1000, total_price := 2000, description := "" }

/-- The order the creation transaction returns for [reqW] over dbW. -/
def createOrderTxnW : Order :=
  { pk := 1, order_id := "CMD-20260129-0001", deposit_date := 0, due_date := 5,
    pickup_date := none, status := "PENDING", total_amount := 2000, amount_paid := 0,
    notes := "", items := [itW] }

/-- The store after that creation. -/
def dbW2 : DB := { services := svcW, orders := [createOrderTxnW], payments := [] }

/-- Item list referencing the nonexistent service id 42. -/
def reqsC5 : List ItemRequest := [{ service_id := 42, quantity := 1, description := "" }]

/-- Item list referencing the existing service id 1 with quantity 1. -/
def reqsC8 : List ItemRequest := [{ service_id := 1, quantity := 1, description := "" }]

/-- A store already holding 9999 orders created on 2026-01-29, with the
ids CMD-20260129-0001 through CMD-20260129-9999 the counting generator
hands out. -/
def ordersC7 : List Order :=
  (List.range 9999).map (fun i =>
    { orderW with pk := i + 1, order_id := formatOrderId d20260129 i })

/-- The store after 9999 same-day order creations. -/
def dbC7 : DB := { services := svcW, orders := ordersC7, payments := [] }

theorem buildItem_fields (services : List Service) (req : ItemRequest) (it : OrderItem)
    (h : buildItem services req = .ok it) :
    ∃ s, findService services req.service_id = some s
      ∧ it.unit_price = s.price
      ∧ it.total_price = s.price * (req.quantity : ℤ)
      ∧ it.quantity = req.quantity
      ∧ it.serviceId = req.service_id := by
  unfold buildItem at h
  cases hf : findService services req.service_id with
  | none => rw [hf] at h; cases h
  | some s =>
    rw [hf] at h
    cases h
    exact ⟨s, rfl, rfl, rfl, rfl, rfl⟩

theorem buildItemList_total_price (services : List Service) (reqs : List ItemRequest) :
    ∀ (items : List OrderItem), buildItemList services reqs = .ok items →
      ∀ it ∈ items, it.total_price = it.unit_price * (it.quantity : ℤ) := by
  induction reqs with
  | nil =>
    intro items h it hit
    unfold buildItemList at h
    cases h
    cases hit
  | cons r rs ih =>
    intro items h it hit
    unfold buildItemList at h
    cases hb : buildItem services r with
    | error e => rw [hb] at h; cases h
    | ok it0 =>
      rw [hb] at h
      cases hrest : buildItemList services rs with
      | error e => rw [hrest] at h; cases h
      | ok rest =>
        rw [hrest] at h
        cases h
        cases hit with
        | head =>
          obtain ⟨s, _, hup, htp, hq, _⟩ := buildItem_fields services r it hb
          rw [htp, hup, hq]
        | tail _ hmem => exact ih rest hrest it hmem

theorem runningTotal_eq_sum (items : List OrderItem) :
    runningTotal items = (items.map (fun it => it.total_price)).sum := by
  unfold runningTotal
  rw [List.sum_eq_foldl, List.foldl_map]

/-- C3: a successfully created order has total_amount equal to the exact
sum over its items of unit_price times quantity (integer-cent arithmetic,
hence no rounding for any combination of prices and quantities),
amount_paid equal to 0, and status PENDING. -/
theorem C3_created_order_totals (db : DB) (pk : Nat) (datestr : List Char)
    (now due : Int) (notes : String) (reqs : List ItemRequest) (db2 : DB) (order : Order)
    (h : createOrderTxn db pk datestr now due notes reqs = (db2, .ok order)) :
    order.total_amount
        = (order.items.map (fun it => it.unit_price * (it.quantity : ℤ))).sum
      ∧ order.amount_paid = 0 ∧ order.status = "PENDING" := by
  unfold createOrderTxn at h
  split at h
  · simp at h
  · split at h
    · simp at h
    · next items heq =>
      simp only [Prod.mk.injEq, Except.ok.injEq] at h
      obtain ⟨h1, h2⟩ := h
      subst h2
      refine ⟨?_, rfl, rfl⟩
      show runningTotal items = (items.map (fun it => it.unit_price * (it.quantity : ℤ))).sum
      rw [runningTotal_eq_sum]
      exact congrArg List.sum
        (List.map_congr_left
          (fun it hit => buildItemList_total_price db.services reqs items heq it hit))

/-- C3 witness: creating an order over the catalog with service 1 priced
10.00 (1000 cents), items [(service 1, qty 2)], yields total 2000 cents,
amount_paid 0, status PENDING. -/
theorem C3_created_order_totals_witness :
    createOrderTxn dbW 1 d20260129 0 5 "" [reqW] = (dbW2, .ok createOrderTxnW)
      ∧ (createOrderTxnW.total_amount
            = (createOrderTxnW.items.map (fun it => it.unit_price * (it.quantity : ℤ))).sum
          ∧ createOrderTxnW.amount_paid = 0 ∧ createOrderTxnW.status = "PENDING") :=
  ⟨by decide,
   C3_created_order_totals dbW 1 d20260129 0 5 "" [reqW] dbW2 createOrderTxnW (by decide)⟩

/-- C4: updating a service price afterwards touches only the services
table (the orders, their items, their unit_price, total_price and
total_amount are unchanged); the unit_price stored in an item built at
creation time is the snapshot of the service price resolved then; and
OrderItem.save recomputes total_price from the stored unit_price and
quantity only, never from the live service price. -/
theorem C4_price_snapshot_frame (db : DB) (sid : Nat) (p : ℤ)
    (services : List Service) (req : ItemRequest) (it : OrderItem)
    (hit : buildItem services req = .ok it) :
    (update_service_price db sid p).orders = db.orders
      ∧ (∃ s, findService services req.service_id = some s ∧ it.unit_price = s.price)
      ∧ (order_item_save it).total_price = it.unit_price * (it.quantity : ℤ) := by
  refine ⟨rfl, ?_, rfl⟩
  obtain ⟨s, hs, hup, _⟩ := buildItem_fields services req it hit
  exact ⟨s, hs, hup⟩

/-- C4 witness at the concrete catalog svcW and request reqW. -/
theorem C4_price_snapshot_frame_witness :
    (update_service_price dbW 1 9900).orders = dbW.orders
      ∧ (∃ s, findService svcW reqW.service_id = some s ∧ itW.unit_price = s.price)
      ∧ (order_item_save itW).total_price = itW.unit_price * (itW.quantity : ℤ) :=
  C4_price_snapshot_frame dbW 1 9900 svcW reqW itW (by decide)

/-- C10: deleting a Payment row through the payments endpoint leaves the
orders table (hence every order field, amount_paid included) unchanged,
and after applying a 5.00 payment and deleting it the order keeps
amount_paid 500 cents while the sum of its remaining payments is 0. -/
theorem C10_delete_payment_no_compensation :
    (∀ (db : DB) (pid : Nat), (destroy_payment db pid).orders = db.orders)
      ∧ ((findOrder (destroy_payment (add_payment dbPay 1 1 500).1 1).orders 1).map
            (fun o => o.amount_paid) = some 500)
      ∧ paymentsSum (destroy_payment (add_payment dbPay 1 1 500).1 1).payments 1 = 0 :=
  ⟨fun _ _ => rfl, by decide, by decide⟩

/-- C6 counterexample: an order already DELIVERED with pickup_date 5;
re-requesting the DELIVERED transition at time 7 succeeds and changes
pickup_date to 7, so the transition is not idempotent on pickup_date. -/
theorem C6_redelivery_overwrites_pickup_date :
    change_status orderC6 "DELIVERED" 7 = .ok { orderC6 with pickup_date := some 7 }
      ∧ orderC6.status = "DELIVERED" ∧ orderC6.pickup_date = some 5
      ∧ (some (7 : Int) ≠ some (5 : Int)) := by decide

/-- C6 amended: every accepted transition to DELIVERED, including a
re-request on an already delivered order, unconditionally stamps
pickup_date with the current time, overwriting any previously stored
value. -/
theorem C6_delivered_always_stamps_now (o : Order) (now : Int) :
    change_status o "DELIVERED" now
      = .ok { o with status := "DELIVERED", pickup_date := some now } := rfl

/-- C9 counterexample: 0.50 (50 cents) is strictly positive yet
add_payment rejects it with ValidationError on the amount and writes
nothing, because the model validator is MinValueValidator(1), one whole
monetary unit. -/
theorem C9_small_positive_amount_rejected :
    (0 : ℤ) < 50
      ∧ add_payment dbPay 1 1 50 = (dbPay, .error (.ValidationError "amount")) := by decide

/-- C9 amended: against an existing order, add_payment validates the
amount against one whole monetary unit (100 cents): any smaller amount,
all nonpositive amounts included, fails with ValidationError on amount
and leaves the store unchanged; any amount of at least 100 cents passes
validation and the payment row is recorded. -/
theorem C9_amount_validated_at_one_unit (db : DB) (pk pid : Nat) (a : ℤ) (o : Order)
    (ho : findOrder db.orders pk = some o) :
    (a < 100 → add_payment db pk pid a = (db, .error (.ValidationError "amount")))
      ∧ (100 ≤ a → ∃ db2, add_payment db pk pid a
            = (db2, .ok { id := pid, orderPk := pk, amount := a })
          ∧ ({ id := pid, orderPk := pk, amount := a } : Payment) ∈ db2.payments) := by
  unfold add_payment
  rw [ho]
  constructor
  · intro hlt
    have hv : validate_amount a = false := by
      unfold validate_amount
      exact decide_eq_false (not_le.mpr hlt)
    rw [hv]
    simp
  · intro hge
    have hv : validate_amount a = true := by
      unfold validate_amount
      exact decide_eq_true hge
    rw [hv]
    simp

/-- C9 witness: amount 200 cents against the store holding orderW. -/
theorem C9_amount_validated_at_one_unit_witness :
    findOrder dbPay.orders 1 = some orderW
      ∧ (((200 : ℤ) < 100 → add_payment dbPay 1 1 200 = (dbPay, .error (.ValidationError "amount")))
        ∧ (100 ≤ (200 : ℤ) → ∃ db2, add_payment dbPay 1 1 200
              = (db2, .ok { id := 1, orderPk := 1, amount := 200 })
            ∧ ({ id := 1, orderPk := 1, amount := 200 } : Payment) ∈ db2.payments)) :=
  ⟨by decide, C9_amount_validated_at_one_unit dbPay 1 1 200 orderW (by decide)⟩

theorem buildItemList_missing_service (services : List Service) (reqs : List ItemRequest)
    (hmiss : ∃ r ∈ reqs, findService services r.service_id = none) :
    ∃ sid, (∃ r ∈ reqs, r.service_id = sid ∧ findService services sid = none)
      ∧ buildItemList services reqs
          = .error (.ValidationError
              ("Service with id " ++ toString sid ++ " does not exist.")) := by
  induction reqs with
  | nil =>
    obtain ⟨r, hr, _⟩ := hmiss
    cases hr
  | cons r rs ih =>
    by_cases hr : findService services r.service_id = none
    · refine ⟨r.service_id, ⟨r, List.mem_cons_self r rs, rfl, hr⟩, ?_⟩
      unfold buildItemList buildItem
      rw [hr]
    · obtain ⟨s, hs⟩ := Option.ne_none_iff_exists'.mp hr
      have hmiss' : ∃ r2 ∈ rs, findService services r2.service_id = none := by
        obtain ⟨r2, hr2, hn⟩ := hmiss
        cases List.mem_cons.mp hr2 with
        | inl heq => rw [heq] at hn; exact absurd hn hr
        | inr hmem => exact ⟨r2, hmem, hn⟩
      obtain ⟨sid, ⟨r2, hr2, hrid, hnone⟩, hbuild⟩ := ih hmiss'
      refine ⟨sid, ⟨r2, List.mem_cons_of_mem r hr2, hrid, hnone⟩, ?_⟩
      unfold buildItemList buildItem
      rw [hs, hbuild]

/-- C5 counterexample: creating an order whose item references the
nonexistent service id 42 fails with a serializers.ValidationError (an
HTTP 400) naming that id, not with a NotFoundError; the store is
returned unchanged. -/
theorem C5_missing_service_error_is_validation :
    createOrderTxn dbW 1 d20260129 0 5 "" reqsC5
        = (dbW, .error (.ValidationError "Service with id 42 does not exist."))
      ∧ ((.error (.ValidationError "Service with id 42 does not exist.")
            : Except ApiError Order)
          ≠ .error (.NotFound "Service with id 42 does not exist.")) := by decide

/-- C5 amended: when some item of the request references a service id
that does not resolve, order creation fails with a ValidationError (not
a NotFoundError) whose message names the offending service id, and the
whole transaction rolls back: the store is returned exactly unchanged,
so no order, item or total is persisted.  The freshness hypothesis rules
out the earlier abort on a duplicate generated order_id. -/
theorem C5_missing_service_rolls_back (db : DB) (pk : Nat) (datestr : List Char)
    (now due : Int) (notes : String) (reqs : List ItemRequest)
    (hfresh : db.orders.any
        (fun o => o.order_id == generate_order_id datestr db.orders) = false)
    (hmiss : ∃ r ∈ reqs, findService db.services r.service_id = none) :
    ∃ sid, (∃ r ∈ reqs, r.service_id = sid ∧ findService db.services sid = none)
      ∧ createOrderTxn db pk datestr now due notes reqs
          = (db, .error (.ValidationError
              ("Service with id " ++ toString sid ++ " does not exist."))) := by
  obtain ⟨sid, hsid, hbuild⟩ := buildItemList_missing_service db.services reqs hmiss
  refine ⟨sid, hsid, ?_⟩
  unfold createOrderTxn
  rw [hfresh, hbuild]
  simp

/-- C5 witness at the concrete store dbW and request list reqsC5. -/
theorem C5_missing_service_rolls_back_witness :
    dbW.orders.any
        (fun o => o.order_id == generate_order_id d20260129 dbW.orders) = false
      ∧ (∃ r ∈ reqsC5, findService dbW.services r.service_id = none)
      ∧ ∃ sid, (∃ r ∈ reqsC5, r.service_id = sid ∧ findService dbW.services sid = none)
          ∧ createOrderTxn dbW 1 d20260129 0 5 "" reqsC5
              = (dbW, .error (.ValidationError
                  ("Service with id " ++ toString sid ++ " does not exist."))) :=
  ⟨by decide, by decide,
   C5_missing_service_rolls_back dbW 1 d20260129 0 5 "" reqsC5 (by decide) (by decide)⟩

/-- C8: the create path performs no due-date validation.  At creation
time 10 with the past due date 0, the transaction succeeds and persists
the order, even though both the model validation Order.clean and the
update-path OrderSerializer.validate reject exactly this order with
ValidationError on due_date.  This contradicts the stated claim that
such a creation fails. -/
theorem C8_create_bypasses_due_date_validation :
    ((createOrderTxn dbW 1 d20260129 10 0 "" reqsC8).2.toOption.map
        (fun o => (o.deposit_date, o.due_date, order_clean o,
                   orderSerializerValidate o.due_date 10)))
      = some (10, 0, .error (.ValidationError "due_date"),
              .error (.ValidationError "due_date"))
    ∧ (createOrderTxn dbW 1 d20260129 10 0 "" reqsC8).1.orders.length = 1 := by decide

theorem paymentsSum_append (pays : List Payment) (p : Payment) (pk : Nat) :
    paymentsSum (pays ++ [p]) pk
      = paymentsSum pays pk + (if p.orderPk == pk then p.amount else 0) := by
  unfold paymentsSum
  rw [List.filter_append, List.map_append, List.sum_append]
  congr 1
  by_cases hc : p.orderPk == pk
  · simp [hc]
  · simp [hc]

theorem findOrder_incr (orders : List Order) (pk : Nat) (a : ℤ) :
    findOrder (incrAmountPaid orders pk a) pk
      = (findOrder orders pk).map
          (fun o => { o with amount_paid := o.amount_paid + a }) := by
  induction orders with
  | nil => rfl
  | cons o rest ih =>
    simp only [incrAmountPaid, List.map_cons] at ih ⊢
    cases hc : (o.pk == pk) with
    | true => simp [findOrder, hc]
    | false =>
      simp only [findOrder, hc, Bool.false_eq_true, if_false]
      exact ih

theorem applyPayOp_invariant (db : DB) (op : PayOp) (h : PaidInvariant db) :
    PaidInvariant (applyPayOp db op) := by
  cases op with
  | viaPayments a => exact h
  | viaOrder pk pid a =>
    show PaidInvariant (add_payment db pk pid a).1
    unfold add_payment
    split
    · exact h
    · split
      · intro o ho
        obtain ⟨o1, ho1, rfl⟩ := List.mem_map.mp ho
        cases hpk : (o1.pk == pk) with
        | true =>
          have hpkeq : o1.pk = pk := by simpa using hpk
          simp only [hpk, if_true]
          show o1.amount_paid + a
              = paymentsSum (db.payments ++ [{ id := pid, orderPk := pk, amount := a }]) o1.pk
          rw [paymentsSum_append, h o1 ho1]
          simp [hpkeq]
        | false =>
          simp only [hpk, if_false]
          show o1.amount_paid
              = paymentsSum (db.payments ++ [{ id := pid, orderPk := pk, amount := a }]) o1.pk
          rw [paymentsSum_append, h o1 ho1]
          have hne : o1.pk ≠ pk := by simpa using hpk
          have hfa : (pk == o1.pk) = false := beq_eq_false_iff_ne.mpr hne.symm
          simp [hfa]
      · exact h

/-- C1: starting from any store satisfying the accounting invariant
(amount_paid of every order equals the sum of the Payment rows recorded
against it; a freshly created order trivially satisfies it with
amount_paid 0 and no payments), any sequence of payment applications
through either endpoint preserves the invariant; moreover each
successful add_payment increments the target order amount_paid by
exactly the payment amount and persists the payment row. -/
theorem C1_amount_paid_equals_payments_sum (db : DB) (ops : List PayOp)
    (h : PaidInvariant db) :
    PaidInvariant (applyPayOps db ops) ∧ AddPaymentIncrements := by
  constructor
  · induction ops generalizing db with
    | nil => exact h
    | cons op rest ih => exact ih (applyPayOp db op) (applyPayOp_invariant db op h)
  · intro db1 db2 pk pid a p o ho hadd
    unfold add_payment at hadd
    rw [ho] at hadd
    split at hadd
    · next heq => exact absurd heq (by simp)
    · split at hadd
      · simp only [Prod.mk.injEq, Except.ok.injEq] at hadd
        obtain ⟨h1, h2⟩ := hadd
        subst h1
        subst h2
        refine ⟨rfl, ?_, by simp⟩
        show findOrder (incrAmountPaid db1.orders pk a) pk = _
        rw [findOrder_incr, ho]
        rfl
      · simp at hadd

/-- C1 witness: the invariant holds for dbPay and is preserved across a
concrete sequence of payment applications; the single-step increment
property is instantiated by the theorem. -/
theorem C1_amount_paid_equals_payments_sum_witness :
    PaidInvariant dbPay
      ∧ (PaidInvariant (applyPayOps dbPay [.viaOrder 1 1 500, .viaPayments 300, .viaOrder 1 2 700])
          ∧ AddPaymentIncrements) :=
  ⟨by unfold PaidInvariant; decide,
   C1_amount_paid_equals_payments_sum dbPay [.viaOrder 1 1 500, .viaPayments 300, .viaOrder 1 2 700]
     (by unfold PaidInvariant; decide)⟩

theorem findOrder_incr_incr_left (orders : List Order) (pk : Nat) (A B : ℤ) (o : Order)
    (ho : findOrder orders pk = some o) :
    findOrder (incrAmountPaid (incrAmountPaid orders pk A) pk B) pk
      = some { o with amount_paid := o.amount_paid + (A + B) } := by
  rw [findOrder_incr, findOrder_incr, ho]
  show some ({ o with amount_paid := o.amount_paid + A + B } : Order)
      = some ({ o with amount_paid := o.amount_paid + (A + B) } : Order)
  rw [add_assoc]

theorem findOrder_incr_incr_right (orders : List Order) (pk : Nat) (A B : ℤ) (o : Order)
    (ho : findOrder orders pk = some o) :
    findOrder (incrAmountPaid (incrAmountPaid orders pk B) pk A) pk
      = some { o with amount_paid := o.amount_paid + (A + B) } := by
  rw [findOrder_incr, findOrder_incr, ho]
  show some ({ o with amount_paid := o.amount_paid + B + A } : Order)
      = some ({ o with amount_paid := o.amount_paid + (A + B) } : Order)
  have hBA : o.amount_paid + B + A = o.amount_paid + (A + B) := by ring
  rw [hBA]

/-- C2: the storage actions of two successful add_payment calls of
amounts A and B against the same order are, per call, an insert of the
Payment row followed by the single-statement atomic increment of
amount_paid (an F-expression update evaluated at the storage layer).
Under every interleaving of the two action sequences the order ends with
amount_paid increased by exactly A + B; no schedule loses an update to a
stale read.  PaymentViewSet.perform_create, the one read-modify-write in
the source, cannot bind an order and therefore never completes a payment
application (payment_viewset_perform_create). -/
theorem C2_concurrent_payments_both_reflected (db : DB) (pk i j : Nat) (A B : ℤ)
    (o : Order) (ho : findOrder db.orders pk = some o)
    (_hA : validate_amount A = true) (_hB : validate_amount B = true)
    (zs : List Action)
    (hz : Interleaving (addPaymentActions pk i A) (addPaymentActions pk j B) zs) :
    findOrder (runActions db zs).orders pk
      = some { o with amount_paid := o.amount_paid + (A + B) } := by
  unfold addPaymentActions at hz
  cases hz with
  | left x1 h1 =>
    cases h1 with
    | left x2 h2 =>
      cases h2 with
      | right y1 h3 =>
        cases h3 with
        | right y2 h4 =>
          cases h4
          exact findOrder_incr_incr_left db.orders pk A B o ho
    | right y1 h2 =>
      cases h2 with
      | left x2 h3 =>
        cases h3 with
        | right y2 h4 =>
          cases h4
          exact findOrder_incr_incr_left db.orders pk A B o ho
      | right y2 h3 =>
        cases h3 with
        | left x2 h4 =>
          cases h4
          exact findOrder_incr_incr_right db.orders pk A B o ho
  | right y1 h1 =>
    cases h1 with
    | left x1 h2 =>
      cases h2 with
      | left x2 h3 =>
        cases h3 with
        | right y2 h4 =>
          cases h4
          exact findOrder_incr_incr_left db.orders pk A B o ho
      | right y2 h3 =>
        cases h3 with
        | left x2 h4 =>
          cases h4
          exact findOrder_incr_incr_right db.orders pk A B o ho
    | right y2 h2 =>
      cases h2 with
      | left x1 h3 =>
        cases h3 with
        | left x2 h4 =>
          cases h4
          exact findOrder_incr_incr_right db.orders pk A B o ho

/-- C2 witness: a concrete interleaving of two payment applications of
500 and 700 cents against orderW, ending with amount_paid 1200. -/
theorem C2_concurrent_payments_both_reflected_witness :
    findOrder dbPay.orders 1 = some orderW
      ∧ validate_amount 500 = true ∧ validate_amount 700 = true
      ∧ findOrder
          (runActions dbPay
            [.insertPayment { id := 1, orderPk := 1, amount := 500 },
             .insertPayment { id := 2, orderPk := 1, amount := 700 },
             .incrPaid 1 500, .incrPaid 1 700]).orders 1
        = some { orderW with amount_paid := orderW.amount_paid + (500 + 700) } :=
  ⟨by decide, by decide, by decide,
   C2_concurrent_payments_both_reflected dbPay 1 1 2 500 700 orderW (by decide)
     (by decide) (by decide)
     [.insertPayment { id := 1, orderPk := 1, amount := 500 },
      .insertPayment { id := 2, orderPk := 1, amount := 700 },
      .incrPaid 1 500, .incrPaid 1 700]
     (.left _ (.right _ (.left _ (.right _ .nil))))⟩

theorem natReprAux_fuel (f1 : Nat) : ∀ (f2 n : Nat), n < f1 → n < f2 →
    natReprAux f1 n = natReprAux f2 n := by
  induction f1 with
  | zero => intro f2 n h1 h2; omega
  | succ f ih =>
    intro f2 n h1 h2
    cases f2 with
    | zero => omega
    | succ g =>
      simp only [natReprAux]
      by_cases hn : n < 10
      · simp [hn]
      · have hdiv : n / 10 < n := Nat.div_lt_self (by omega) (by omega)
        simp only [hn, if_false]
        rw [ih g (n / 10) (by omega) (by omega)]

theorem natRepr_unfold (n : Nat) :
    natRepr n = if n < 10 then [Char.ofNat (48 + n)]
      else natRepr (n / 10) ++ [Char.ofNat (48 + n % 10)] := by
  by_cases hn : n < 10
  · rw [if_pos hn]
    show (if n < 10 then [Char.ofNat (48 + n)]
        else natReprAux n (n / 10) ++ [Char.ofNat (48 + n % 10)]) = [Char.ofNat (48 + n)]
    rw [if_pos hn]
  · rw [if_neg hn]
    show (if n < 10 then [Char.ofNat (48 + n)]
        else natReprAux n (n / 10) ++ [Char.ofNat (48 + n % 10)])
      = natReprAux (n / 10 + 1) (n / 10) ++ [Char.ofNat (48 + n % 10)]
    rw [if_neg hn]
    have hdiv : n / 10 < n := Nat.div_lt_self (by omega) (by omega)
    rw [natReprAux_fuel n (n / 10 + 1) (n / 10) (by omega) (by omega)]

theorem natRepr_length_le : ∀ (k n : Nat), 1 ≤ k → n < 10 ^ k → (natRepr n).length ≤ k := by
  intro k
  induction k with
  | zero => intro n h1 h2; omega
  | succ k ih =>
    intro n _ hn
    rw [natRepr_unfold]
    by_cases h10 : n < 10
    · rw [if_pos h10]
      simp
    · rw [if_neg h10]
      simp only [List.length_append, List.length_cons, List.length_nil]
      have hk1 : 1 ≤ k := by
        by_contra hk
        have hk0 : k = 0 := by omega
        subst hk0
        norm_num at hn
        omega
      have hdiv : n / 10 < 10 ^ k := by
        have hmul : n < 10 * 10 ^ k := by
          rw [pow_succ] at hn
          omega
        omega
      have := ih (n / 10) hk1 hdiv
      omega

theorem digitChar_isDigit (d : Nat) (h : d < 10) : (Char.ofNat (48 + d)).isDigit = true := by
  interval_cases d <;> decide

theorem natRepr_all_digit (n : Nat) : (natRepr n).all Char.isDigit = true := by
  induction n using Nat.strong_induction_on with
  | _ n ih =>
    rw [natRepr_unfold]
    by_cases h10 : n < 10
    · simp [h10, digitChar_isDigit n h10]
    · have hdiv : n / 10 < n := Nat.div_lt_self (by omega) (by omega)
      simp only [h10, if_false, List.all_append]
      rw [ih (n / 10) hdiv]
      simp [digitChar_isDigit (n % 10) (Nat.mod_lt n (by omega))]

theorem natRepr_length_pos (n : Nat) : 1 ≤ (natRepr n).length := by
  rw [natRepr_unfold]
  by_cases h10 : n < 10
  · simp [h10]
  · simp [h10]

theorem pad4_length (n : Nat) (h : (natRepr n).length ≤ 4) : (pad4 n).length = 4 := by
  unfold pad4
  rw [List.length_append, List.length_replicate]
  omega

theorem pad4_all_digit (n : Nat) : (pad4 n).all Char.isDigit = true := by
  unfold pad4
  rw [List.all_append]
  have h1 : (List.replicate (4 - (natRepr n).length) '0').all Char.isDigit = true := by
    rw [List.all_eq_true]
    intro c hc
    rw [List.eq_of_mem_replicate hc]
    decide
  rw [h1, natRepr_all_digit]
  rfl

theorem formatOrderId_matches (datestr : List Char) (count : Nat)
    (hlen : datestr.length = 8) (hdig : datestr.all Char.isDigit = true)
    (hcount : count + 1 < 10000) :
    matchesOrderIdPattern (formatOrderId datestr count).data = true := by
  have hr4 : (natRepr (count + 1)).length ≤ 4 :=
    natRepr_length_le 4 (count + 1) (by omega) (by norm_num; omega)
  show matchesOrderIdPattern
      ('C' :: 'M' :: 'D' :: '-' :: (datestr ++ ('-' :: pad4 (count + 1)))) = true
  simp only [matchesOrderIdPattern]
  rw [← hlen, List.take_left, List.drop_left, hlen]
  simp [hdig, pad4_length _ hr4, pad4_all_digit]

theorem createOrderTxn_preserves_nodup (db : DB) (pk : Nat) (datestr : List Char)
    (now due : Int) (notes : String) (reqs : List ItemRequest)
    (h : (db.orders.map (fun o => o.order_id)).Nodup) :
    ((createOrderTxn db pk datestr now due notes reqs).1.orders.map
        (fun o => o.order_id)).Nodup := by
  unfold createOrderTxn
  split
  · exact h
  · next hany =>
    split
    · exact h
    · next items heq =>
      dsimp only
      rw [List.map_append, List.nodup_append]
      refine ⟨h, List.nodup_singleton _, ?_⟩
      intro x hx hx2
      simp only [List.map_cons, List.map_nil, List.mem_singleton] at hx2
      subst hx2
      obtain ⟨o1, ho1, hid⟩ := List.mem_map.mp hx
      rw [Bool.not_eq_true, List.any_eq_false] at hany
      exact hany o1 ho1 (by rw [beq_iff_eq]; exact hid)

/-- C7 amended: order ids remain pairwise distinct across the whole
order set (the UNIQUE column constraint aborts a colliding insert), and
the generated id always matches CMD-YYYYMMDD-N+ with the final component
of exactly four digits whenever fewer than 9999 orders already share the
day prefix; at 9999 the next id CMD-YYYYMMDD-10000 has five digits. -/
theorem C7_order_ids_unique_and_format :
    (∀ (db : DB) (pk : Nat) (datestr : List Char) (now due : Int)
        (notes : String) (reqs : List ItemRequest),
        (db.orders.map (fun o => o.order_id)).Nodup →
        ((createOrderTxn db pk datestr now due notes reqs).1.orders.map
            (fun o => o.order_id)).Nodup)
      ∧ (∀ (datestr : List Char) (count : Nat),
          datestr.length = 8 → datestr.all Char.isDigit = true → count + 1 < 10000 →
          matchesOrderIdPattern (formatOrderId datestr count).data = true) :=
  ⟨createOrderTxn_preserves_nodup, formatOrderId_matches⟩

/-- C7 witness: id uniqueness is preserved by a concrete creation over
dbW, and the first id of the day matches the exact CMD-d8-d4 pattern. -/
theorem C7_order_ids_unique_and_format_witness :
    ((dbW.orders.map (fun o => o.order_id)).Nodup
        ∧ ((createOrderTxn dbW 1 d20260129 0 5 "" [reqW]).1.orders.map
            (fun o => o.order_id)).Nodup)
      ∧ (d20260129.length = 8 ∧ d20260129.all Char.isDigit = true
          ∧ (0 : Nat) + 1 < 10000
          ∧ matchesOrderIdPattern (formatOrderId d20260129 0).data = true) :=
  ⟨⟨by decide, C7_order_ids_unique_and_format.1 dbW 1 d20260129 0 5 "" [reqW] (by decide)⟩,
   by decide, by decide, by decide,
   C7_order_ids_unique_and_format.2 d20260129 0 (by decide) (by decide) (by decide)⟩

theorem countTodayOrders_C7 : countTodayOrders ordersC7 d20260129 = 9999 := by
  have hall : ∀ o ∈ ordersC7,
      ((orderIdPrefix d20260129).isPrefixOf o.order_id.data) = true := by
    intro o ho
    unfold ordersC7 at ho
    obtain ⟨i, hi, rfl⟩ := List.mem_map.mp ho
    show (orderIdPrefix d20260129).isPrefixOf (formatOrderId d20260129 i).data = true
    rw [List.isPrefixOf_iff_prefix]
    show orderIdPrefix d20260129 <+: orderIdPrefix d20260129 ++ ('-' :: pad4 (i + 1))
    exact List.prefix_append _ _
  unfold countTodayOrders
  rw [List.filter_eq_self.mpr hall]
  unfold ordersC7
  rw [List.length_map, List.length_range]

theorem generate_order_id_C7 :
    generate_order_id d20260129 ordersC7 = "CMD-20260129-10000" := by
  unfold generate_order_id
  rw [countTodayOrders_C7]
  decide

theorem any_duplicate_C7 :
    (ordersC7.any
        (fun o => o.order_id == generate_order_id d20260129 ordersC7)) = false := by
  rw [generate_order_id_C7, List.any_eq_false]
  intro o ho
  unfold ordersC7 at ho
  obtain ⟨i, hi, rfl⟩ := List.mem_map.mp ho
  intro hbeq
  have heq : formatOrderId d20260129 i = "CMD-20260129-10000" := by simpa using hbeq
  have hlen : (formatOrderId d20260129 i).data.length
      = ("CMD-20260129-10000" : String).data.length := by rw [heq]
  have hi9 : i < 9999 := List.mem_range.mp hi
  have hr4 : (natRepr (i + 1)).length ≤ 4 :=
    natRepr_length_le 4 (i + 1) (by omega) (by norm_num; omega)
  have h12 : (orderIdPrefix d20260129).length = 12 := by decide
  have hfl : (formatOrderId d20260129 i).data.length = 17 := by
    show (orderIdPrefix d20260129 ++ ('-' :: pad4 (i + 1))).length = 17
    rw [List.length_append, h12, List.length_cons, pad4_length _ hr4]
  have h18 : ("CMD-20260129-10000" : String).data.length = 18 := by decide
  omega

/-- C7 counterexample: with the 9999 orders CMD-20260129-0001 through
CMD-20260129-9999 already stored for the day, the next creation succeeds
and the new order receives order_id CMD-20260129-10000, whose final
component has five digits, refuting the exactly-four-digit format. -/
theorem C7_five_digit_component :
    (createOrderTxn dbC7 10000 d20260129 0 5 "" [reqW]).2.toOption.map
        (fun o => (o.order_id, matchesOrderIdPattern o.order_id.data))
      = some ("CMD-20260129-10000", false) := by
  have hb : buildItemList svcW [reqW] = .ok [itW] := by decide
  unfold createOrderTxn dbC7
  dsimp only
  rw [any_duplicate_C7, hb, if_neg (by decide), generate_order_id_C7]
  decide

end Pressing
